import Mathlib

/-!
Verification of the lightbox photo viewer (lightbox.js) and the lazy image
loader (lazyload.js). The JavaScript module state and its event handlers are
embedded as pure Lean functions over an explicit state record; DOM and
collaborator side effects (rendering, prefetch requests, modal visibility,
history writes) are tracked as an explicit effect list returned alongside the
new state. JS strings are modelled as Lean strings operated on through their
character lists (the inputs of interest are ASCII).
-/

namespace Lightbox

/-- Photo record from the externally supplied catalog. Optional fields are
modelled as `Option String`; a missing field corresponds to `none`. -/
structure Photo where
  filename : String
  web : String := ""
  slug : Option String := none
  caption : Option String := none
  date : Option String := none
  camera : Option String := none
  lens : Option String := none
  settings : Option String := none
  location : Option String := none
deriving DecidableEq, Repr

/-- JS truthiness of an optional string value: `undefined`/`null` and the
empty string are falsy, every other string is truthy. -/
def strTruthy : Option String → Bool
  | none => false
  | some s => !(s = "")

/-- Character class `[a-z0-9]` (lowercase alphanumeric). -/
def isLowerAlnum (c : Char) : Bool :=
  (('a' ≤ c && c ≤ 'z') || ('0' ≤ c && c ≤ '9'))

/-- Character class `[a-z0-9-]` used by the slug substitution in `slugFor`. -/
def isSlugChar (c : Char) : Bool :=
  isLowerAlnum c || c = '-'

/-- One step of `.replace([^a-z0-9-]/g, "-")`: keep slug characters, turn
every other character into a hyphen. -/
def subHyphen (c : Char) : Char :=
  if isSlugChar c then c else '-'

/-- The `.replace(-+/g, "-")` pass: collapse every run of hyphens to a single
hyphen. The boolean records whether the previously emitted character was a
hyphen of a still-open run. -/
def collapseHyphensAux : Bool → List Char → List Char
  | _, [] => []
  | prevH, c :: rest =>
    if c = '-' then
      if prevH then collapseHyphensAux true rest
      else '-' :: collapseHyphensAux true rest
    else c :: collapseHyphensAux false rest

/-- The `.replace(^-|-$/g, "")` pass: remove one leading and one trailing
hyphen. On the output of the collapsing pass this strips all edge hyphens. -/
def stripEdgeHyphens (l : List Char) : List Char :=
  let l1 := match l with
    | '-' :: rest => rest
    | other => other
  match l1.reverse with
  | '-' :: rest => rest.reverse
  | _ => l1

/-- The `.replace(\.[^.]+$, "")` pass of `slugFor`: remove a final dot
followed by one or more non-dot characters (the filename extension). -/
def stripExtension (f : String) : String :=
  let r := f.toList.reverse
  let ext := r.takeWhile (fun c => !(c == '.'))
  let rest := r.dropWhile (fun c => !(c == '.'))
  match rest with
  | [] => f
  | _ :: rest2 => if ext = [] then f else String.mk rest2.reverse

/-- Fallback slug derivation of `slugFor`: drop the extension, lowercase,
substitute non-slug characters by hyphens, collapse hyphen runs, strip edge
hyphens. -/
def slugFromFilename (f : String) : String :=
  String.mk (stripEdgeHyphens (collapseHyphensAux false
    (((stripExtension f).toList.map Char.toLower).map subHyphen)))

/-- Collapse every maximal run of non-alphanumeric characters to a single
hyphen; second formulation used to compare the source chain of regex passes
against the wording of the specification. -/
def collapseRunsAux : Bool → List Char → List Char
  | _, [] => []
  | prevN, c :: rest =>
    if isLowerAlnum c then c :: collapseRunsAux false rest
    else if prevN then collapseRunsAux true rest
    else '-' :: collapseRunsAux true rest

/-- Filename normalization as the amended specification words it: extension
removed, lowercased, non-alphanumeric runs collapsed to a single hyphen,
leading and trailing hyphens stripped. -/
def slugNormalizeClaim (f : String) : String :=
  String.mk (stripEdgeHyphens (collapseRunsAux false
    ((stripExtension f).toList.map Char.toLower)))

/-- Filename normalization exactly as claim C6 states it, without the
extension-removal pass: lowercased, non-alphanumeric runs collapsed to a
single hyphen, leading and trailing hyphens stripped. -/
def slugClaimNoExt (f : String) : String :=
  String.mk (stripEdgeHyphens (collapseRunsAux false (f.toList.map Char.toLower)))

/-- Source `slugFor`: return the explicit slug field when truthy, otherwise
derive a slug from the filename. -/
def slugFor (photo : Photo) : String :=
  if strTruthy photo.slug then photo.slug.getD ""
  else slugFromFilename photo.filename

/-- Source `indexBySlug`: `findIndex` over the catalog comparing derived
slugs; `none` plays the role of the JS result `-1`. -/
def indexBySlug (slug : String) : List Photo → Option Nat
  | [] => none
  | p :: ps =>
    if slugFor p = slug then some 0
    else (indexBySlug slug ps).map (fun n => n + 1)

/-- JS `String.prototype.startsWith`, modelled over the character list. -/
def jsStartsWith (s pat : String) : Bool :=
  pat.toList.isPrefixOf s.toList

/-- Slug extracted from a hash of the form `#photo=<slug>`: the source uses
`hash.replace("#photo=", "")`, which on a string starting with that pattern
removes exactly its first 7 characters. -/
def hashSlug (h : String) : String :=
  String.mk (h.toList.drop 7)

/-- Directory used by the rendering and prefetch code. -/
def WEB_DIR : String := "photos/web/"

/-- Module state of lightbox.js. `photos` is `_photos`, `currentIndex` is
`_currentIndex` (a JS number, so an `Int`), `modalOpen` is whether the modal
element carries the bootstrap class `show` (the viewer is open),
`suppressHashChange` is the reentrancy flag, `hash` is the address fragment
(the empty string when no fragment is set). -/
structure LBState where
  photos : List Photo
  currentIndex : Int
  modalOpen : Bool
  suppressHashChange : Bool
  hash : String
deriving DecidableEq, Repr

/-- Observable side effects issued towards the DOM and the collaborators. -/
inductive Effect where
  | render (index : Int)
  | hashWrite (value : String)
  | hashClear
  | preload (src : String)
  | modalShow
  | modalHide
deriving DecidableEq, Repr

/-- Source `setHash`: set the suppression flag and write the fragment; the
flag clearing is scheduled on a later tick, modelled by `rafTick`. -/
def setHash (slug : String) (s : LBState) : LBState :=
  { s with suppressHashChange := true, hash := "#photo=" ++ slug }

/-- Source `clearHash`: set the suppression flag and restore the fragment-free
address. -/
def clearHash (s : LBState) : LBState :=
  { s with suppressHashChange := true, hash := "" }

/-- The scheduled `requestAnimationFrame` callback clearing the flag. -/
def rafTick (s : LBState) : LBState :=
  { s with suppressHashChange := false }

/-- Effects of source `preload`: out-of-range indexes are a no-op, otherwise a
fire-and-forget image request for the asset of that index is issued. -/
def preloadEffects (index : Int) (photos : List Photo) : List Effect :=
  if index < 0 ∨ (photos.length : Int) ≤ index then []
  else
    match photos.get? index.toNat with
    | some photo => [Effect.preload (WEB_DIR ++ photo.web)]
    | none => []

/-- Source `show` (renamed: `show` is reserved in Lean): bounds-guarded
navigation. In range it sets `_currentIndex`, renders the photo, publishes the
slug via `setHash` and prefetches both neighbours; out of range it does
nothing. -/
def showPhoto (index : Int) (s : LBState) : LBState × List Effect :=
  if index < 0 ∨ (s.photos.length : Int) ≤ index then (s, [])
  else
    match s.photos.get? index.toNat with
    | none => (s, [])
    | some photo =>
      (setHash (slugFor photo) { s with currentIndex := index },
       Effect.render index :: Effect.hashWrite ("#photo=" ++ slugFor photo) ::
         (preloadEffects (index - 1) s.photos ++ preloadEffects (index + 1) s.photos))

/-- Source `open` (renamed: `open` is reserved in Lean): `show(index)`
followed by an unconditional `_modal.show()`. -/
def openLB (index : Int) (s : LBState) : LBState × List Effect :=
  ({ (showPhoto index s).1 with modalOpen := true },
   (showPhoto index s).2 ++ [Effect.modalShow])

/-- Closing reaction: `_modal.hide()` makes the modal invisible and its
`hidden.bs.modal` notification runs `clearHash`. -/
def closeLB (s : LBState) : LBState × List Effect :=
  (clearHash { s with modalOpen := false }, [Effect.modalHide, Effect.hashClear])

/-- Body of the source `hashchange` listener, run on the state in which the
browser has already installed the new fragment. Suppressed notifications
return immediately; a known slug is shown (viewer open) or opened (viewer
closed); an unknown slug is ignored; a non-photo hash closes the viewer when
it is open. -/
def hashchangeBody (newHash : String) (s1 : LBState) : LBState × List Effect :=
  if s1.suppressHashChange then (s1, [])
  else if jsStartsWith newHash "#photo=" then
    match indexBySlug (hashSlug newHash) s1.photos with
    | some idx =>
      if s1.modalOpen then showPhoto (idx : Int) s1
      else openLB (idx : Int) s1
    | none => (s1, [])
  else if s1.modalOpen then closeLB s1
  else (s1, [])

/-- A fragment-change notification: the browser changes
`window.location.hash` to `newHash`, then the listener body runs. -/
def hashchange (newHash : String) (s : LBState) : LBState × List Effect :=
  hashchangeBody newHash { s with hash := newHash }

/-- Module state right after `init(photos)` wires the listeners (before the
startup deep-link check): index 0, viewer closed, flag clear, no fragment. -/
def initState (photos : List Photo) : LBState :=
  { photos := photos, currentIndex := 0, modalOpen := false,
    suppressHashChange := false, hash := "" }

/-- Source `keydown` listener: ignored entirely unless the modal carries the
`show` class; arrow keys navigate relative to the current index. -/
def keydown (key : String) (s : LBState) : LBState × List Effect :=
  if !s.modalOpen then (s, [])
  else if key = "ArrowLeft" then showPhoto (s.currentIndex - 1) s
  else if key = "ArrowRight" then showPhoto (s.currentIndex + 1) s
  else (s, [])

/-- Click listener of the previous-photo affordance (no open-state guard in
the source). -/
def clickPrev (s : LBState) : LBState × List Effect :=
  showPhoto (s.currentIndex - 1) s

/-- Click listener of the next-photo affordance (no open-state guard in the
source). -/
def clickNext (s : LBState) : LBState × List Effect :=
  showPhoto (s.currentIndex + 1) s

/-- Source `touchend` listener: `moved` is the `_touchMoved` flag recorded by
the touchmove listener, `dx` and `dy` the screen displacements since
touchstart. A horizontal-dominant swipe beyond the threshold navigates. -/
def touchend (moved : Bool) (dx dy : Int) (s : LBState) : LBState × List Effect :=
  if !moved then (s, [])
  else if 50 < dx.natAbs ∧ dy.natAbs < dx.natAbs then
    if dx < 0 then showPhoto (s.currentIndex + 1) s
    else showPhoto (s.currentIndex - 1) s
  else (s, [])

/-- Navigation intents of the gesture classification. -/
inductive Nav where
  | next
  | prev
deriving DecidableEq, Repr

/-- Touch classification as claim C7 words it: no recorded movement never
navigates; with movement, navigation fires iff the horizontal displacement
exceeds the threshold 50 and dominates the vertical one, negative toward
`next` and positive toward `prev`. -/
def touchNavClaim (moved : Bool) (dx dy : Int) : Option Nav :=
  if moved = false then none
  else if 50 < dx.natAbs ∧ dy.natAbs < dx.natAbs then
    if dx < 0 then some Nav.next
    else if 0 < dx then some Nav.prev
    else none
  else none

/-- Events of the viewer state machine: programmatic open, navigation
(`show`), the closing reaction, an external fragment-change notification, and
the scheduled flag-clearing tick. -/
inductive Ev where
  | openE (i : Int)
  | showE (i : Int)
  | closeE
  | hashE (newHash : String)
  | tickE
deriving DecidableEq, Repr

/-- One state-machine step (effects discarded). -/
def step (e : Ev) (s : LBState) : LBState :=
  match e with
  | Ev.openE i => (openLB i s).1
  | Ev.showE i => (showPhoto i s).1
  | Ev.closeE => (closeLB s).1
  | Ev.hashE h => (hashchange h s).1
  | Ev.tickE => rafTick s

/-- Run a sequence of events from a state. -/
def stepEvents (evs : List Ev) (s : LBState) : LBState :=
  match evs with
  | [] => s
  | e :: rest => stepEvents rest (step e s)

/-- Environment of `share()`: whether the async clipboard write resolves,
whether the synchronous select-and-copy fallback throws, and whether the
toast collaborator elements exist. -/
structure ShareEnv where
  clipboardOk : Bool
  fallbackThrows : Bool
  toastPresent : Bool
deriving DecidableEq, Repr

/-- Source `showToast`: no-op when either toast element is missing, otherwise
show `message` with the fixed 2000 ms auto-dismiss delay. -/
def showToast (toastPresent : Bool) (message : String) : Option (String × Nat) :=
  if !toastPresent then none
  else some (message, 2000)

/-- Source `share()`: the toast shown, if any. A resolving clipboard write
shows the toast; a rejected write runs the synchronous fallback and then
shows the same toast; an exception thrown inside the fallback escapes the
rejection callback before `showToast` runs, so nothing is shown. -/
def share (env : ShareEnv) : Option (String × Nat) :=
  if env.clipboardOk then showToast env.toastPresent "Link copied to clipboard"
  else if env.fallbackThrows then none
  else showToast env.toastPresent "Link copied to clipboard"

/-- State of one lazily loaded image element (lazyload.js): its `src` and
`srcset` properties, the `data-src` and `data-srcset` attributes, whether the
observer still observes it and whether the one-shot load listener was
attached. -/
structure LazyImg where
  src : Option String := none
  srcset : Option String := none
  dataSrc : Option String := none
  dataSrcset : Option String := none
  observed : Bool := true
  loadListener : Bool := false
deriving DecidableEq, Repr

/-- Source `onIntersect` restricted to one entry: a non-intersecting entry is
skipped; a falsy `data-src` returns early; otherwise `data-srcset` is applied
and removed when truthy, `data-src` is moved into `src`, the load listener is
attached and the element is unobserved. -/
def onIntersectEntry (isIntersecting : Bool) (img : LazyImg) : LazyImg :=
  if !isIntersecting then img
  else if strTruthy img.dataSrc then
    let img1 :=
      if strTruthy img.dataSrcset then
        { img with srcset := img.dataSrcset, dataSrcset := none }
      else img
    { img1 with src := img.dataSrc, dataSrc := none,
                loadListener := true, observed := false }
  else img

/-- Concrete photos used by witnesses and counterexamples. -/
def photoA : Photo := { filename := "a.jpg", web := "a.jpg", slug := some "a" }

/-- Second concrete photo. -/
def photoB : Photo := { filename := "b.jpg", web := "b.jpg", slug := some "b" }

/-! Helper lemmas about `showPhoto`, `openLB` and the reachability step. -/

/-- Out-of-range `showPhoto` is a no-op with no effects. -/
lemma showPhoto_out (s : LBState) (i : Int)
    (h : i < 0 ∨ (s.photos.length : Int) ≤ i) :
    showPhoto i s = (s, []) := by
  unfold showPhoto
  rw [if_pos h]

/-- In-range `showPhoto` sets the current index, publishes the slug of the
selected photo and issues the render and neighbour-prefetch effects. -/
lemma showPhoto_in (s : LBState) (i : Int) (h0 : 0 ≤ i)
    (h1 : i < (s.photos.length : Int)) :
    ∃ photo, s.photos.get? i.toNat = some photo ∧
      showPhoto i s =
        ({ s with currentIndex := i, suppressHashChange := true,
                  hash := "#photo=" ++ slugFor photo },
         Effect.render i :: Effect.hashWrite ("#photo=" ++ slugFor photo) ::
           (preloadEffects (i - 1) s.photos ++ preloadEffects (i + 1) s.photos)) := by
  have hn : i.toNat < s.photos.length := by omega
  obtain ⟨photo, hp⟩ : ∃ p, s.photos.get? i.toNat = some p :=
    ⟨s.photos.get ⟨i.toNat, hn⟩, List.get?_eq_get hn⟩
  refine ⟨photo, hp, ?_⟩
  have hcond : ¬ (i < 0 ∨ (s.photos.length : Int) ≤ i) := by omega
  unfold showPhoto
  rw [if_neg hcond, hp]
  rfl

/-- `showPhoto` never touches the modal visibility. -/
lemma showPhoto_modalOpen (i : Int) (s : LBState) :
    (showPhoto i s).1.modalOpen = s.modalOpen := by
  unfold showPhoto
  split
  · rfl
  · split <;> rfl

/-- `showPhoto` never touches the catalog. -/
lemma showPhoto_photos (i : Int) (s : LBState) :
    (showPhoto i s).1.photos = s.photos := by
  unfold showPhoto
  split
  · rfl
  · split <;> rfl

/-- Prefetch effects never contain a modal visibility request. -/
lemma modalShow_not_mem_preload (i : Int) (ps : List Photo) :
    Effect.modalShow ∉ preloadEffects i ps := by
  unfold preloadEffects
  split
  · simp
  · split <;> simp

/-- `showPhoto` never requests modal visibility. -/
lemma showPhoto_noModalShow (i : Int) (s : LBState) :
    Effect.modalShow ∉ (showPhoto i s).2 := by
  unfold showPhoto
  split
  · simp
  · split
    · simp
    · simp [modalShow_not_mem_preload]

/-- The state part of `openLB` is the state part of `showPhoto` with the
modal made visible. -/
lemma openLB_fst (i : Int) (s : LBState) :
    (openLB i s).1 = { (showPhoto i s).1 with modalOpen := true } := rfl

/-- `openLB` always requests modal visibility. -/
lemma modalShow_mem_openLB (i : Int) (s : LBState) :
    Effect.modalShow ∈ (openLB i s).2 := by
  unfold openLB
  simp

/-- `indexBySlug` only returns indexes inside the catalog. -/
lemma indexBySlug_lt {slug : String} :
    ∀ {ps : List Photo} {idx : Nat}, indexBySlug slug ps = some idx → idx < ps.length := by
  intro ps
  induction ps with
  | nil => intro idx h; simp [indexBySlug] at h
  | cons p rest ih =>
    intro idx h
    unfold indexBySlug at h
    by_cases hc : slugFor p = slug
    · rw [if_pos hc] at h
      cases h
      simp
    · rw [if_neg hc] at h
      rw [Option.map_eq_some'] at h
      obtain ⟨j, hj, hji⟩ := h
      subst hji
      have := ih hj
      simp
      omega

/-- The always-valid-index invariant of the viewer state. -/
def goodState (s : LBState) : Prop :=
  0 ≤ s.currentIndex ∧ s.currentIndex < (s.photos.length : Int)

/-- `showPhoto` preserves the index invariant. -/
lemma showPhoto_good (i : Int) (s : LBState) (h : goodState s) :
    goodState (showPhoto i s).1 := by
  by_cases hc : i < 0 ∨ (s.photos.length : Int) ≤ i
  · rw [showPhoto_out s i hc]; exact h
  · push_neg at hc
    obtain ⟨photo, _, he⟩ := showPhoto_in s i hc.1 hc.2
    rw [he]
    exact ⟨hc.1, hc.2⟩

/-- `openLB` preserves the index invariant. -/
lemma openLB_good (i : Int) (s : LBState) (h : goodState s) :
    goodState (openLB i s).1 := by
  rw [openLB_fst]
  exact showPhoto_good i s h

/-- The step function preserves the index invariant. -/
lemma step_good (e : Ev) (s : LBState) (h : goodState s) :
    goodState (step e s) := by
  cases e with
  | openE i => exact openLB_good i s h
  | showE i => exact showPhoto_good i s h
  | closeE => exact h
  | hashE newHash =>
    show goodState (hashchange newHash s).1
    have hgood1 : goodState { s with hash := newHash } := h
    unfold hashchange
    generalize hg : ({ s with hash := newHash } : LBState) = s1 at hgood1 ⊢
    unfold hashchangeBody
    split
    · exact hgood1
    · split
      · split
        · split
          · exact showPhoto_good _ _ hgood1
          · exact openLB_good _ _ hgood1
        · exact hgood1
      · split
        · exact hgood1
        · exact hgood1
  | tickE => exact h

/-- The step function never touches the catalog. -/
lemma step_photos (e : Ev) (s : LBState) :
    (step e s).photos = s.photos := by
  cases e with
  | openE i =>
    show (openLB i s).1.photos = s.photos
    rw [openLB_fst]
    exact showPhoto_photos i s
  | showE i => exact showPhoto_photos i s
  | closeE => rfl
  | hashE newHash =>
    show (hashchange newHash s).1.photos = s.photos
    have hps : ({ s with hash := newHash } : LBState).photos = s.photos := rfl
    unfold hashchange
    generalize hg : ({ s with hash := newHash } : LBState) = s1 at hps ⊢
    unfold hashchangeBody
    split
    · exact hps
    · split
      · split
        · split
          · rw [showPhoto_photos]; exact hps
          · rw [openLB_fst, showPhoto_photos]; exact hps
        · exact hps
      · split
        · exact hps
        · exact hps
  | tickE => rfl

/-- Running any event sequence preserves the index invariant. -/
lemma stepEvents_good (evs : List Ev) (s : LBState) (h : goodState s) :
    goodState (stepEvents evs s) := by
  induction evs generalizing s with
  | nil => exact h
  | cons e rest ih => exact ih (step e s) (step_good e s h)

/-- Running any event sequence preserves the catalog. -/
lemma stepEvents_photos (evs : List Ev) (s : LBState) :
    (stepEvents evs s).photos = s.photos := by
  induction evs generalizing s with
  | nil => rfl
  | cons e rest ih =>
    show (stepEvents rest (step e s)).photos = s.photos
    rw [ih (step e s), step_photos e s]

/-! Equivalence between the source regex chain of `slugFor` and the
normalization as the specification words it. -/

/-- A lowercase alphanumeric character is not a hyphen. -/
lemma alnum_ne_hyphen (c : Char) (h : isLowerAlnum c = true) : c ≠ '-' := by
  intro he
  subst he
  exact absurd h (by decide)

/-- The hyphen substitution keeps alphanumeric characters. -/
lemma subHyphen_alnum (c : Char) (h : isLowerAlnum c = true) : subHyphen c = c := by
  unfold subHyphen isSlugChar
  rw [h]
  rfl

/-- The hyphen substitution maps every non-alphanumeric character to a
hyphen. -/
lemma subHyphen_nonalnum (c : Char) (h : isLowerAlnum c = false) : subHyphen c = '-' := by
  unfold subHyphen isSlugChar
  by_cases hc : c = '-'
  · subst hc
    rfl
  · rw [h]
    simp [hc]

/-- Substituting non-slug characters by hyphens and then collapsing hyphen
runs equals collapsing non-alphanumeric runs to single hyphens directly. -/
lemma collapse_map_sub (l : List Char) :
    ∀ b, collapseHyphensAux b (l.map subHyphen) = collapseRunsAux b l := by
  induction l with
  | nil => intro b; rfl
  | cons c rest ih =>
    intro b
    by_cases hA : isLowerAlnum c = true
    · have hne : ¬ (c = '-') := alnum_ne_hyphen c hA
      simp only [List.map_cons, subHyphen_alnum c hA]
      unfold collapseHyphensAux collapseRunsAux
      rw [if_neg hne, hA]
      simp only [if_true]
      rw [ih false]
    · have hA2 : isLowerAlnum c = false := by
        cases hB : isLowerAlnum c
        · rfl
        · exact absurd hB hA
      simp only [List.map_cons, subHyphen_nonalnum c hA2]
      unfold collapseHyphensAux collapseRunsAux
      rw [hA2]
      simp only [if_pos rfl, Bool.false_eq_true, if_false]
      cases b <;> simp [ih]

/-- The source filename normalization equals the normalization as the
amended specification words it. -/
lemma slugFromFilename_eq_claim (f : String) :
    slugFromFilename f = slugNormalizeClaim f := by
  unfold slugFromFilename slugNormalizeClaim
  rw [collapse_map_sub]

/-! Claim theorems. -/

/-- C1: for every index `i` with `0 <= i < count`, `open(i)` results in the
viewer state `isOpen = true` and `currentIndex = i`, the address fragment
equal to `#photo=` followed by the slug of photo `i`, and the
modal-visibility request issued. -/
theorem C1_open_valid (s : LBState) (i : Int) (h0 : 0 ≤ i)
    (h1 : i < (s.photos.length : Int)) :
    (openLB i s).1.modalOpen = true
    ∧ (openLB i s).1.currentIndex = i
    ∧ (∃ photo, s.photos.get? i.toNat = some photo ∧
        (openLB i s).1.hash = "#photo=" ++ slugFor photo)
    ∧ Effect.modalShow ∈ (openLB i s).2 := by
  obtain ⟨photo, hp, he⟩ := showPhoto_in s i h0 h1
  refine ⟨rfl, ?_, ⟨photo, hp, ?_⟩, modalShow_mem_openLB i s⟩
  · rw [openLB_fst, he]
  · rw [openLB_fst, he]

/-- Witness for C1 at a concrete catalog of two photos and index 1. -/
theorem C1_open_valid_witness :
    (openLB 1 (initState [photoA, photoB])).1.modalOpen = true
    ∧ (openLB 1 (initState [photoA, photoB])).1.currentIndex = 1
    ∧ (∃ photo, (initState [photoA, photoB]).photos.get? (1 : Int).toNat = some photo ∧
        (openLB 1 (initState [photoA, photoB])).1.hash = "#photo=" ++ slugFor photo)
    ∧ Effect.modalShow ∈ (openLB 1 (initState [photoA, photoB])).2 :=
  C1_open_valid (initState [photoA, photoB]) 1 (by decide) (by decide)

/-- C2: after `publish(slug)` (`setHash`, which raises the suppression flag
before writing the fragment), a fragment-change notification carrying that
same slug delivered before the flag-clearing tick leaves the whole state
(current index, open flag, fragment, suppression flag) unchanged and issues
no effect: the handler returns at the suppression guard. -/
theorem C2_self_publish_suppressed (s : LBState) (slug : String) :
    hashchange ("#photo=" ++ slug) (setHash slug s) = (setHash slug s, []) := rfl

/-- C4 counterexample: `open(5)` on a one-photo catalog is out of range, yet
it changes the state (the viewer opens) and issues the modal-visibility
request, because `open` calls `_modal.show()` unconditionally. -/
theorem C4_cex_open_out_of_range :
    (initState [photoA]).modalOpen = false
    ∧ (openLB 5 (initState [photoA])).1.modalOpen = true
    ∧ Effect.modalShow ∈ (openLB 5 (initState [photoA])).2 := by decide

/-- C4 amended: for every index outside `[0, count)`, `open(i)` leaves
`currentIndex`, the fragment and the suppression flag unchanged and issues no
render or prefetch effect, but it still issues the modal-visibility request
and sets the open flag. -/
theorem C4_open_out_of_range_amended (s : LBState) (i : Int)
    (h : i < 0 ∨ (s.photos.length : Int) ≤ i) :
    (openLB i s).1 = { s with modalOpen := true }
    ∧ (openLB i s).2 = [Effect.modalShow] := by
  have hs := showPhoto_out s i h
  constructor
  · rw [openLB_fst, hs]
  · show (showPhoto i s).2 ++ [Effect.modalShow] = [Effect.modalShow]
    rw [hs]
    rfl

/-- Witness for the amended C4 at index 5 on a one-photo catalog. -/
theorem C4_open_out_of_range_amended_witness :
    (openLB 5 (initState [photoA])).1 = { initState [photoA] with modalOpen := true }
    ∧ (openLB 5 (initState [photoA])).2 = [Effect.modalShow] :=
  C4_open_out_of_range_amended (initState [photoA]) 5 (by decide)

/-- C5 counterexample: over the empty catalog the state reached by the single
operation `open(0)` has the viewer open while `currentIndex = 0` is not a
valid index of the empty catalog, because `open` still shows the modal when
`show` rejects the index. -/
theorem C5_cex_empty_catalog :
    (stepEvents [Ev.openE 0] (initState [])).modalOpen = true
    ∧ ¬ ((stepEvents [Ev.openE 0] (initState [])).currentIndex <
          (((initState ([] : List Photo)).photos.length : Nat) : Int)) := by decide

/-- C5 amended: over any non-empty catalog, in every state reachable from the
initial state by any sequence of open, navigate, close, fragment-change and
tick events, the viewer being open implies `currentIndex` is a valid index
into the catalog. (Over the empty catalog the invariant fails, see the
counterexample.) -/
theorem C5_invariant_amended (catalog : List Photo) (evs : List Ev)
    (hne : catalog ≠ [])
    (hopen : (stepEvents evs (initState catalog)).modalOpen = true) :
    0 ≤ (stepEvents evs (initState catalog)).currentIndex
    ∧ (stepEvents evs (initState catalog)).currentIndex < (catalog.length : Int) := by
  have hlen : 0 < catalog.length := List.length_pos.mpr hne
  have hinit : goodState (initState catalog) := by
    constructor
    · exact le_refl 0
    · show (0 : Int) < ((initState catalog).photos.length : Int)
      exact_mod_cast hlen
  have hgood := stepEvents_good evs (initState catalog) hinit
  have hps := stepEvents_photos evs (initState catalog)
  obtain ⟨hg1, hg2⟩ := hgood
  refine ⟨hg1, ?_⟩
  rw [hps] at hg2
  exact hg2

/-- Witness for the amended C5: one-photo catalog, `open(0)`. -/
theorem C5_invariant_amended_witness :
    0 ≤ (stepEvents [Ev.openE 0] (initState [photoA])).currentIndex
    ∧ (stepEvents [Ev.openE 0] (initState [photoA])).currentIndex <
        (([photoA] : List Photo).length : Int) :=
  C5_invariant_amended [photoA] [Ev.openE 0] (by decide) (by decide)

/-- C3: for every fragment-change notification that is not suppressed: a
fragment of the form `#photo=<slug>` with a slug known to the catalog opens
the viewer to that index when it is closed, and navigates to it without
re-requesting modal visibility when it is open; a fragment that is removed or
does not have the `#photo=` shape closes the viewer when it is open; a
`#photo=` fragment with an unknown slug leaves the viewer state (current
index and open flag) unchanged and issues no effect. -/
theorem C3_external_reconciliation (s : LBState) (newHash : String)
    (hsup : s.suppressHashChange = false) :
    (∀ idx : Nat, jsStartsWith newHash "#photo=" = true →
      indexBySlug (hashSlug newHash) s.photos = some idx →
      ((s.modalOpen = false →
          (hashchange newHash s).1.modalOpen = true
          ∧ (hashchange newHash s).1.currentIndex = (idx : Int)
          ∧ Effect.modalShow ∈ (hashchange newHash s).2)
        ∧ (s.modalOpen = true →
          (hashchange newHash s).1.modalOpen = true
          ∧ (hashchange newHash s).1.currentIndex = (idx : Int)
          ∧ Effect.modalShow ∉ (hashchange newHash s).2)))
    ∧ (jsStartsWith newHash "#photo=" = false → s.modalOpen = true →
        (hashchange newHash s).1.modalOpen = false)
    ∧ (jsStartsWith newHash "#photo=" = true →
        indexBySlug (hashSlug newHash) s.photos = none →
        (hashchange newHash s).1.currentIndex = s.currentIndex
        ∧ (hashchange newHash s).1.modalOpen = s.modalOpen
        ∧ (hashchange newHash s).2 = []) := by
  have hsup1 : ({ s with hash := newHash } : LBState).suppressHashChange = false := hsup
  refine ⟨?_, ?_, ?_⟩
  · intro idx hst hidx
    have hval : (idx : Int) < (({ s with hash := newHash } : LBState).photos.length : Int) := by
      have := indexBySlug_lt hidx
      show ((idx : Nat) : Int) < ((s.photos.length : Nat) : Int)
      exact_mod_cast this
    have h0 : (0 : Int) ≤ (idx : Int) := Int.ofNat_nonneg idx
    obtain ⟨photo, hp, he⟩ := showPhoto_in { s with hash := newHash } (idx : Int) h0 hval
    constructor
    · intro hcl
      have hred : hashchange newHash s = openLB (idx : Int) { s with hash := newHash } := by
        unfold hashchange hashchangeBody
        rw [if_neg (by rw [hsup1]; exact Bool.false_ne_true)]
        rw [if_pos hst]
        show (match indexBySlug (hashSlug newHash) s.photos with
          | some idx =>
            if ({ s with hash := newHash } : LBState).modalOpen = true then
              showPhoto (idx : Int) { s with hash := newHash }
            else openLB (idx : Int) { s with hash := newHash }
          | none => ({ s with hash := newHash }, [])) = _
        rw [hidx]
        show (if s.modalOpen = true then _ else _) = _
        rw [hcl]
        rfl
      rw [hred]
      refine ⟨rfl, ?_, modalShow_mem_openLB _ _⟩
      rw [openLB_fst, he]
    · intro hop
      have hred : hashchange newHash s = showPhoto (idx : Int) { s with hash := newHash } := by
        unfold hashchange hashchangeBody
        rw [if_neg (by rw [hsup1]; exact Bool.false_ne_true)]
        rw [if_pos hst]
        show (match indexBySlug (hashSlug newHash) s.photos with
          | some idx =>
            if ({ s with hash := newHash } : LBState).modalOpen = true then
              showPhoto (idx : Int) { s with hash := newHash }
            else openLB (idx : Int) { s with hash := newHash }
          | none => ({ s with hash := newHash }, [])) = _
        rw [hidx]
        show (if s.modalOpen = true then _ else _) = _
        rw [hop]
        rfl
      rw [hred]
      refine ⟨?_, ?_, showPhoto_noModalShow _ _⟩
      · rw [showPhoto_modalOpen]
        exact hop
      · rw [he]
  · intro hst hop
    have hred : hashchange newHash s = closeLB { s with hash := newHash } := by
      unfold hashchange hashchangeBody
      rw [if_neg (by rw [hsup1]; exact Bool.false_ne_true)]
      rw [if_neg (by rw [hst]; exact Bool.false_ne_true)]
      show (if ({ s with hash := newHash } : LBState).modalOpen = true then _ else _) = _
      rw [show ({ s with hash := newHash } : LBState).modalOpen = s.modalOpen from rfl, hop]
      rfl
    rw [hred]
    rfl
  · intro hst hidx
    have hred : hashchange newHash s = ({ s with hash := newHash }, []) := by
      unfold hashchange hashchangeBody
      rw [if_neg (by rw [hsup1]; exact Bool.false_ne_true)]
      rw [if_pos hst]
      show (match indexBySlug (hashSlug newHash) s.photos with
        | some idx =>
          if ({ s with hash := newHash } : LBState).modalOpen = true then
            showPhoto (idx : Int) { s with hash := newHash }
          else openLB (idx : Int) { s with hash := newHash }
        | none => ({ s with hash := newHash }, [])) = _
      rw [hidx]
    rw [hred]
    exact ⟨rfl, rfl, rfl⟩

/-- Open viewer state used by the C3 witness: two-photo catalog, photo 0
displayed, fragment published. -/
def c3OpenState : LBState :=
  { photos := [photoA, photoB], currentIndex := 0, modalOpen := true,
    suppressHashChange := false, hash := "#photo=a" }

/-- Witness for C3: with the viewer open on photo 0, an external change to
`#photo=b` navigates to index 1 without re-requesting modal visibility. -/
theorem C3_external_reconciliation_witness :
    (hashchange "#photo=b" c3OpenState).1.modalOpen = true
    ∧ (hashchange "#photo=b" c3OpenState).1.currentIndex = ((1 : Nat) : Int)
    ∧ Effect.modalShow ∉ (hashchange "#photo=b" c3OpenState).2 :=
  ((C3_external_reconciliation c3OpenState "#photo=b" rfl).1 1
    (by decide) (by decide)).2 rfl

/-- Photo with an explicitly present but empty slug field, used by the C6
counterexample. -/
def photoEmptySlug : Photo := { filename := "Pic.jpg", web := "p.jpg", slug := some "" }

/-- Photo without a slug field, used by the C6 counterexample. -/
def photoNoSlug : Photo := { filename := "Pic.jpg", web := "p.jpg" }

/-- C6 counterexample: a record whose explicit slug field is the empty string
does not get that field back (the truthiness test skips it), and a record
without a slug field gets the extension-stripped normalization `pic`, not the
value `pic-jpg` that the normalization described by the claim (without
extension removal) produces. -/
theorem C6_cex_slugFor :
    slugFor photoEmptySlug = "pic"
    ∧ slugFor photoEmptySlug ≠ ""
    ∧ slugFor photoNoSlug = "pic"
    ∧ slugClaimNoExt photoNoSlug.filename = "pic-jpg"
    ∧ slugFor photoNoSlug ≠ slugClaimNoExt photoNoSlug.filename := by decide

/-- C6 amended: `slugFor` is deterministic; a record whose slug field is
present and non-empty gets that field back exactly (an empty slug field is
treated as absent); every other record gets its filename with the final
dot-extension removed, lowercased, every run of non-alphanumeric characters
collapsed to a single hyphen, and leading and trailing hyphens stripped. -/
theorem C6_slugFor_amended :
    (∀ r : Photo, slugFor r = slugFor r)
    ∧ (∀ (r : Photo) (s : String), r.slug = some s → s ≠ "" → slugFor r = s)
    ∧ (∀ r : Photo, strTruthy r.slug = false →
        slugFor r = slugNormalizeClaim r.filename) := by
  refine ⟨fun r => rfl, ?_, ?_⟩
  · intro r s hs hne
    unfold slugFor
    rw [hs]
    have ht : strTruthy (some s) = true := by
      unfold strTruthy
      simp [hne]
    rw [if_pos ht]
    rfl
  · intro r h
    unfold slugFor
    rw [if_neg (by rw [h]; exact Bool.false_ne_true)]
    exact slugFromFilename_eq_claim r.filename

/-- Witness for the amended C6 at a record with the explicit slug `a`. -/
theorem C6_slugFor_amended_witness : slugFor photoA = "a" :=
  C6_slugFor_amended.2.1 photoA "a" rfl (by decide)

/-- C7: the touch classification of the source `touchend` handler agrees with
the classification the claim describes (no recorded movement never navigates;
with movement, navigation fires exactly when the horizontal displacement
exceeds 50 and dominates the vertical one, negative toward next and positive
toward prev), and on the four displacement samples of the claim it yields
next, prev, nothing and nothing respectively. -/
theorem C7_touch_classification :
    (∀ (s : LBState) (moved : Bool) (dx dy : Int),
      touchend moved dx dy s =
        match touchNavClaim moved dx dy with
        | some Nav.next => showPhoto (s.currentIndex + 1) s
        | some Nav.prev => showPhoto (s.currentIndex - 1) s
        | none => (s, []))
    ∧ touchNavClaim true (-60) 5 = some Nav.next
    ∧ touchNavClaim true 60 5 = some Nav.prev
    ∧ touchNavClaim true 30 5 = none
    ∧ touchNavClaim true 60 70 = none := by
  refine ⟨?_, by decide, by decide, by decide, by decide⟩
  intro s moved dx dy
  unfold touchend touchNavClaim
  cases moved with
  | false => rfl
  | true =>
    simp only [Bool.not_true, Bool.false_eq_true, if_false]
    by_cases hth : 50 < dx.natAbs ∧ dy.natAbs < dx.natAbs
    · rw [if_pos hth, if_pos hth]
      by_cases hneg : dx < 0
      · rw [if_pos hneg, if_pos hneg]
        simp
      · have hpos : 0 < dx := by
          have := hth.1
          omega
        rw [if_neg hneg, if_neg hneg, if_pos hpos]
        simp
    · rw [if_neg hth, if_neg hth]
      simp

/-- C8 counterexample: with the viewer closed over a two-photo catalog, the
click handler of the next affordance still navigates — the current index
moves from 0 to 1 and the fragment is written — because the click listeners
carry no open-state guard. -/
theorem C8_cex_click_while_closed :
    (initState [photoA, photoB]).modalOpen = false
    ∧ (initState [photoA, photoB]).currentIndex = 0
    ∧ (clickNext (initState [photoA, photoB])).1.currentIndex = 1
    ∧ (clickNext (initState [photoA, photoB])).1.hash = "#photo=b"
    ∧ (clickNext (initState [photoA, photoB])).1.modalOpen = false := by decide

/-- C8 amended: while the viewer is closed, keyboard input is ignored
entirely (no state change, no effect); the click and touch handlers are not
guarded by the open check and may navigate while closed, but no keyboard,
click or touch input ever opens the viewer: the open flag stays false and no
modal-visibility request is issued. -/
theorem C8_closed_inputs_amended (s : LBState) (h : s.modalOpen = false) :
    (∀ key, keydown key s = (s, []))
    ∧ ((clickPrev s).1.modalOpen = false ∧ Effect.modalShow ∉ (clickPrev s).2)
    ∧ ((clickNext s).1.modalOpen = false ∧ Effect.modalShow ∉ (clickNext s).2)
    ∧ (∀ (moved : Bool) (dx dy : Int),
        (touchend moved dx dy s).1.modalOpen = false
        ∧ Effect.modalShow ∉ (touchend moved dx dy s).2) := by
  refine ⟨?_, ⟨?_, ?_⟩, ⟨?_, ?_⟩, ?_⟩
  · intro key
    unfold keydown
    rw [h]
    rfl
  · show (showPhoto (s.currentIndex - 1) s).1.modalOpen = false
    rw [showPhoto_modalOpen]
    exact h
  · exact showPhoto_noModalShow _ _
  · show (showPhoto (s.currentIndex + 1) s).1.modalOpen = false
    rw [showPhoto_modalOpen]
    exact h
  · exact showPhoto_noModalShow _ _
  · intro moved dx dy
    unfold touchend
    cases moved with
    | false => exact ⟨h, by simp⟩
    | true =>
      simp only [Bool.not_true, Bool.false_eq_true, if_false]
      by_cases hth : 50 < dx.natAbs ∧ dy.natAbs < dx.natAbs
      · rw [if_pos hth]
        by_cases hneg : dx < 0
        · rw [if_pos hneg]
          exact ⟨by rw [showPhoto_modalOpen]; exact h, showPhoto_noModalShow _ _⟩
        · rw [if_neg hneg]
          exact ⟨by rw [showPhoto_modalOpen]; exact h, showPhoto_noModalShow _ _⟩
      · rw [if_neg hth]
        exact ⟨h, by simp⟩

/-- Witness for the amended C8: closed one-photo state, arrow key ignored and
next-click leaves the viewer closed. -/
theorem C8_closed_inputs_amended_witness :
    keydown "ArrowRight" (initState [photoA]) = (initState [photoA], [])
    ∧ (clickNext (initState [photoA])).1.modalOpen = false :=
  ⟨(C8_closed_inputs_amended (initState [photoA]) rfl).1 "ArrowRight",
   (C8_closed_inputs_amended (initState [photoA]) rfl).2.2.1.1⟩

/-- C9: when the async clipboard write succeeds, `share()` shows the toast
with text `Link copied to clipboard` and the 2000 ms auto-dismiss delay; when
the write fails and the synchronous select-and-copy fallback completes, the
same toast is shown; with the toast collaborator present, nothing is shown
exactly when both copy paths fail (the write rejects and the fallback
throws); with the collaborator absent, `share()` completes showing nothing
and without surfacing an error. -/
theorem C9_share_toast (env : ShareEnv) :
    (env.clipboardOk = true → env.toastPresent = true →
      share env = some ("Link copied to clipboard", 2000))
    ∧ (env.clipboardOk = false → env.fallbackThrows = false → env.toastPresent = true →
      share env = some ("Link copied to clipboard", 2000))
    ∧ (env.toastPresent = true →
      (share env = none ↔ env.clipboardOk = false ∧ env.fallbackThrows = true))
    ∧ (env.toastPresent = false → share env = none) := by
  obtain ⟨co, ft, tp⟩ := env
  cases co <;> cases ft <;> cases tp <;> exact (by decide)

/-- Witness for C9: clipboard succeeds and the toast collaborator exists. -/
theorem C9_share_toast_witness :
    share { clipboardOk := true, fallbackThrows := false, toastPresent := true }
      = some ("Link copied to clipboard", 2000) :=
  (C9_share_toast { clipboardOk := true, fallbackThrows := false, toastPresent := true }).1
    rfl rfl

/-- C10: for an observed image with a truthy `data-src`, the first
intersection notification copies `data-src` into `src` (and a truthy
`data-srcset` into `srcset`), removes the data attributes and unobserves the
element; afterwards every further intersection notification, intersecting or
not, leaves the element unchanged, so the real source is assigned at most
once. -/
theorem C10_lazy_assign_once (img : LazyImg) (src : String)
    (hsrc : img.dataSrc = some src) (hne : src ≠ "") :
    (onIntersectEntry true img).src = some src
    ∧ (onIntersectEntry true img).dataSrc = none
    ∧ (onIntersectEntry true img).observed = false
    ∧ (∀ ss, img.dataSrcset = some ss → ss ≠ "" →
        (onIntersectEntry true img).srcset = some ss
        ∧ (onIntersectEntry true img).dataSrcset = none)
    ∧ (∀ b, onIntersectEntry b (onIntersectEntry true img) = onIntersectEntry true img) := by
  have ht : strTruthy img.dataSrc = true := by
    rw [hsrc]
    unfold strTruthy
    simp [hne]
  have hmain : onIntersectEntry true img =
      (if strTruthy img.dataSrcset then
        { img with srcset := img.dataSrcset, dataSrcset := none,
                   src := img.dataSrc, dataSrc := none,
                   loadListener := true, observed := false }
      else
        { img with src := img.dataSrc, dataSrc := none,
                   loadListener := true, observed := false }) := by
    unfold onIntersectEntry
    rw [if_neg (by simp), if_pos ht]
    by_cases hss : strTruthy img.dataSrcset = true
    · rw [if_pos hss, if_pos hss]
    · rw [if_neg hss, if_neg hss]
  by_cases hss : strTruthy img.dataSrcset = true
  · rw [hmain, if_pos hss]
    refine ⟨by rw [hsrc], rfl, rfl, ?_, ?_⟩
    · intro ss hss2 _
      rw [hss2]
      exact ⟨rfl, rfl⟩
    · intro b
      cases b
      · rfl
      · rfl
  · rw [hmain, if_neg hss]
    refine ⟨by rw [hsrc], rfl, rfl, ?_, ?_⟩
    · intro ss hss2 hssne
      exact absurd (by rw [hss2]; unfold strTruthy; simp [hssne]) hss
    · intro b
      cases b
      · rfl
      · rfl

/-- Concrete lazily loaded image used by the C10 witness. -/
def lazyDemo : LazyImg :=
  { dataSrc := some "photos/thumbs/a.jpg", dataSrcset := some "photos/thumbs/a-2x.jpg 2x" }

/-- Witness for C10 at a concrete image with both data attributes. -/
theorem C10_lazy_assign_once_witness :
    (onIntersectEntry true lazyDemo).src = some "photos/thumbs/a.jpg"
    ∧ (onIntersectEntry true lazyDemo).dataSrc = none
    ∧ (onIntersectEntry true lazyDemo).observed = false
    ∧ (∀ ss, lazyDemo.dataSrcset = some ss → ss ≠ "" →
        (onIntersectEntry true lazyDemo).srcset = some ss
        ∧ (onIntersectEntry true lazyDemo).dataSrcset = none)
    ∧ (∀ b, onIntersectEntry b (onIntersectEntry true lazyDemo) = onIntersectEntry true lazyDemo) :=
  C10_lazy_assign_once lazyDemo "photos/thumbs/a.jpg" rfl (by decide)

end Lightbox
